import Mathlib

/-!
Verification of the comment-retrieval pipeline of `grab-yt-comments`
(src/scraper.py, src/classifier.py, src/app.py) against its specification.

The Python functions are shallowly embedded as Lean functions.  HTTP and
JSON parsing are boundary effects: an embedded function receives the
already-parsed response (status code plus structured body) instead of
performing I/O, and `urllib.parse.urlparse` / `parse_qs` results are taken
as inputs (a `ParsedURL` value).  Sleeping is modelled by recording the
requested durations.  Machine reals used for the backoff arithmetic are
modelled as rationals (the Python expressions involved are exact in ℚ for
the parameters the spec mentions).
-/

/-- The failure taxonomy of the pipeline.  `invalidURL` is the `ValueError`
raised by `extract_video_id`; `remoteAPIError s` is the `requests.HTTPError`
raised by `resp.raise_for_status()` for a status `s` with `400 ≤ s < 600`;
`retriesExhausted s` is the `RuntimeError` raised after the retry loop with
the last response's status `s`; `notFound` is the `IndexError` raised by
`data["items"][0]` on an empty item list (the spec's `NotFound`);
`unboundLocal` is the Python `NameError`/`UnboundLocalError` reached when
`max_retries = 0` makes the final `raise` read the never-assigned `resp`. -/
inductive ScrapeError where
  | invalidURL : ScrapeError
  | remoteAPIError : Nat → ScrapeError
  | retriesExhausted : Nat → ScrapeError
  | notFound : ScrapeError
  | unboundLocal : ScrapeError
deriving DecidableEq, Repr

/-- The result of `urllib.parse.urlparse` plus `parse_qs`, taken as the
input boundary of `extract_video_id` (src/scraper.py line 7).
`hostname` is `parsed.hostname` (`none` when the URL has no network
location; Python lowercases it during parsing).  `path` is `parsed.path`.
`query` is the `parse_qs(parsed.query)` multi-map flattened to ordered
key/value pairs (blank values already dropped, as `parse_qs` does by
default). -/
structure ParsedURL where
  hostname : Option String
  path : String
  query : List (String × String)
deriving DecidableEq, Repr

/-- `qs[k]` of the `parse_qs` result: the values listed under key `k`,
in order.  `k in qs` is this list being nonempty. -/
def qsValues (query : List (String × String)) (k : String) : List String :=
  (query.filter (fun p => p.1 = k)).map (fun p => p.2)

/-- Python `s.lstrip("/")`: drop every leading `/`. -/
def lstripSlashes (s : String) : String :=
  String.mk (s.toList.dropWhile (fun c => c = '/'))

/-- Python `path.split("/")` (split on a one-character separator, keeping
empty segments; `"".split("/") = [""]`), written as structural recursion
over the character list with an accumulator for the current segment. -/
def splitSlashAux (acc : List Char) : List Char → List String
  | [] => [String.mk acc.reverse]
  | c :: rest =>
    if c = '/' then String.mk acc.reverse :: splitSlashAux [] rest
    else splitSlashAux (c :: acc) rest

/-- Python `path.split("/")`. -/
def splitSlash (s : String) : List String :=
  splitSlashAux [] s.toList

example : splitSlash "" = [""] := by rfl
example : splitSlash "/shorts/ABC" = ["", "shorts", "ABC"] := by rfl
example : splitSlash "a//b/" = ["a", "", "b", ""] := by rfl

/-- src/scraper.py lines 6–17, `extract_video_id`, after the `urlparse` /
`parse_qs` boundary.  `path_parts[-1]` is the last element of the split
list, which is never empty. -/
def extract_video_id (u : ParsedURL) : Except ScrapeError String :=
  if u.hostname = some "youtu.be" ∨ u.hostname = some "www.youtu.be" then
    .ok (lstripSlashes u.path)
  else if u.hostname = some "www.youtube.com" ∨ u.hostname = some "youtube.com"
      ∨ u.hostname = some "m.youtube.com" then
    match qsValues u.query "v" with
    | v :: _ => .ok v
    | [] =>
      if "shorts" ∈ splitSlash u.path then .ok ((splitSlash u.path).getLastD "")
      else .error .invalidURL
  else .error .invalidURL

example : extract_video_id ⟨some "youtu.be", "/ABC123", []⟩ = .ok "ABC123" := by rfl
example : extract_video_id ⟨some "youtu.be", "/", []⟩ = .ok "" := by rfl
example : extract_video_id ⟨some "www.youtube.com", "/watch", [("v", "dQw4")]⟩ = .ok "dQw4" := by
  rfl
example : extract_video_id ⟨some "www.youtube.com", "/shorts/ABC", []⟩ = .ok "ABC" := by rfl
example : extract_video_id ⟨some "www.youtube.com", "/shorts/ABC/extra", []⟩ = .ok "extra" := by
  rfl
example : extract_video_id ⟨some "vimeo.com", "/x", []⟩ = .error .invalidURL := by rfl
example : extract_video_id ⟨some "youtube.com", "/watch", []⟩ = .error .invalidURL := by rfl

/-- An HTTP response at the model boundary: status code and parsed body. -/
structure Response (β : Type) where
  status : Nat
  body : β
deriving DecidableEq, Repr

/-- The transient-status set of src/scraper.py line 34. -/
def transientStatuses : List Nat := [403, 429, 500, 503]

/-- Whether `resp.raise_for_status()` raises: exactly the 4xx/5xx range. -/
def raisesForStatus (status : Nat) : Bool :=
  400 ≤ status && status < 600

/-- The sleep issued on a transient status at zero-indexed loop index
`attempt`: `(backoff_base ** attempt) + (attempt * 0.5)`
(src/scraper.py line 35), over exact rationals. -/
def backoffWait (backoff_base : ℚ) (attempt : Nat) : ℚ :=
  backoff_base ^ attempt + attempt * (1 / 2)

/-- Observable outcome of `exponential_backoff_request`: the result (on
success, the zero-indexed attempt at which the 200 response arrived,
with that response), the number of GET requests issued, and the list of
sleep durations in order. -/
structure FetchOutcome (β : Type) where
  result : Except ScrapeError (Nat × Response β)
  requests : Nat
  sleeps : List ℚ
deriving Repr

/-- The `for attempt in range(max_retries)` loop of src/scraper.py
lines 30–39, with `fuel` iterations remaining and `attempt` the current
index.  `lastStatus` is the status of the most recent response, used by
the final `raise RuntimeError` (line 39); when the loop body never ran
(`max_retries = 0`) that line reads the unassigned `resp`, a Python
`NameError`, modelled as `unboundLocal`.  A non-200 status outside both
the transient set and the 4xx/5xx range (e.g. 204 or 304) makes
`raise_for_status` a no-op and the loop continues without sleeping. -/
def exponential_backoff_request_aux {β : Type} (responses : Nat → Response β)
    (backoff_base : ℚ) : Nat → Nat → Option Nat → FetchOutcome β
  | 0, _, none => ⟨.error .unboundLocal, 0, []⟩
  | 0, _, some s => ⟨.error (.retriesExhausted s), 0, []⟩
  | fuel + 1, attempt, _ =>
    let resp := responses attempt
    if resp.status = 200 then ⟨.ok (attempt, resp), 1, []⟩
    else if resp.status ∈ transientStatuses then
      let rest := exponential_backoff_request_aux responses backoff_base fuel
        (attempt + 1) (some resp.status)
      ⟨rest.result, rest.requests + 1, backoffWait backoff_base attempt :: rest.sleeps⟩
    else if raisesForStatus resp.status then
      ⟨.error (.remoteAPIError resp.status), 1, []⟩
    else
      let rest := exponential_backoff_request_aux responses backoff_base fuel
        (attempt + 1) (some resp.status)
      ⟨rest.result, rest.requests + 1, rest.sleeps⟩

/-- src/scraper.py lines 29–39, `exponential_backoff_request`.
`responses i` is the response the `i`-th GET would receive.  The Python
defaults are `max_retries = 6`, `backoff_base = 1.5`. -/
def exponential_backoff_request {β : Type} (responses : Nat → Response β)
    (max_retries : Nat) (backoff_base : ℚ) : FetchOutcome β :=
  exponential_backoff_request_aux responses backoff_base max_retries 0 none

example :
    (exponential_backoff_request (fun _ => Response.mk 404 ()) 6 (3 / 2)).result
      = .error (.remoteAPIError 404) := by rfl
example : (exponential_backoff_request (fun _ => Response.mk 404 ()) 6 (3 / 2)).requests = 1 := by
  rfl
example :
    exponential_backoff_request (fun _ => Response.mk 204 ()) 6 (3 / 2)
      = ⟨.error (.retriesExhausted 204), 6, []⟩ := by rfl
example :
    (exponential_backoff_request
        (fun i => if i < 2 then Response.mk 429 () else Response.mk 200 ()) 6 (3 / 2)).result
      = .ok (2, Response.mk 200 ()) := by rfl
example :
    (exponential_backoff_request
        (fun i => if i < 2 then Response.mk 429 () else Response.mk 200 ()) 6 (3 / 2)).sleeps
      = [backoffWait (3 / 2) 0, backoffWait (3 / 2) 1] := by rfl
example : backoffWait (3 / 2) 0 + backoffWait (3 / 2) 1 = 3 := by norm_num [backoffWait]

/-- The character filter of src/scraper.py line 26:
`c.isalnum() or c in (" ", "-", "_")` (alphanumeric per the ASCII subset;
the titles in this development are ASCII). -/
def allowedChar (c : Char) : Bool :=
  c.isAlphanum || c = ' ' || c = '-' || c = '_'

/-- Python `s.rstrip()`: remove trailing whitespace only. -/
def rstripPy (s : String) : String :=
  String.mk (s.toList.reverse.dropWhile Char.isWhitespace).reverse

/-- The sanitization of src/scraper.py lines 26–27: keep only allowed
characters, strip trailing whitespace, and substitute the fallback
literal `"youtube_comments"` when the result is empty (Python
`safe_title or "youtube_comments"`). -/
def sanitizeTitle (title : String) : String :=
  let safe_title := rstripPy (String.mk (title.toList.filter allowedChar))
  if safe_title = "" then "youtube_comments" else safe_title

example : sanitizeTitle " My Video! " = " My Video" := by rfl
example : sanitizeTitle "!!!" = "youtube_comments" := by rfl
example : sanitizeTitle "a-b_c 1" = "a-b_c 1" := by rfl

/-- src/scraper.py lines 19–27, `get_video_title`.  The response body is
the parsed JSON's `items` list, each item abstracted to its
`snippet.title` string.  `resp.raise_for_status()` raises only on
4xx/5xx; `data["items"][0]` on an empty list is an `IndexError`, the
spec's `NotFound`. -/
def get_video_title (resp : Response (List String)) : Except ScrapeError String :=
  if raisesForStatus resp.status then .error (.remoteAPIError resp.status)
  else
    match resp.body with
    | [] => .error .notFound
    | title :: _ => .ok (sanitizeTitle title)

example : get_video_title ⟨200, [" My Video! "]⟩ = .ok " My Video" := by rfl
example : get_video_title ⟨200, []⟩ = .error .notFound := by rfl
example : get_video_title ⟨404, ["T"]⟩ = .error (.remoteAPIError 404) := by rfl
example : get_video_title ⟨304, ["T"]⟩ = .ok "T" := by rfl

/-- One page body returned by the comment-listing endpoint: the `items`
list (`data.get("items", [])` defaults a missing key to the empty list)
and the optional `nextPageToken`. -/
structure PageBody (α : Type) where
  items : Option (List α)
  nextPageToken : Option String
deriving Repr

/-- Python truthiness in `if not next_token: break` (src/scraper.py
line 69): a missing token and an empty-string token are both terminal. -/
def truthyToken : Option String → Option String
  | none => none
  | some t => if t = "" then none else some t

/-- The `while True` loop of `fetch_all_comment_threads`
(src/scraper.py lines 56–72).  `pages` lists the successive successful
page bodies the endpoint returns (the `i`-th request of the loop
receives `pages[i]`; each request goes through
`exponential_backoff_request`, whose non-200 outcomes propagate as
exceptions and are outside this success-path model).  `tok` is the
`pageToken` sent with the current request (`none` when the parameter is
absent, as on the first request).  Returns `none` when the supplied page
list runs out while the loop would still continue (a boundary artifact,
unreachable when some page's token is absent); otherwise the items
accumulated in arrival order and the `pageToken` values sent, one per
request. -/
def fetch_all_loop {α : Type} : List (PageBody α) → Option String →
    Option (List α × List (Option String))
  | [], _ => none
  | p :: rest, tok =>
    let items := p.items.getD []
    match truthyToken p.nextPageToken with
    | none => some (items, [tok])
    | some t =>
      match fetch_all_loop rest (some t) with
      | none => none
      | some r => some (items ++ r.1, tok :: r.2)

/-- src/scraper.py lines 41–73, `fetch_all_comment_threads`: run the
pagination loop starting with no `pageToken`. -/
def fetch_all_comment_threads {α : Type} (pages : List (PageBody α)) :
    Option (List α × List (Option String)) :=
  fetch_all_loop pages none

example :
    fetch_all_comment_threads
        [⟨some ["a1"], some "B"⟩, ⟨some ["b1", "b2"], some "C"⟩, ⟨some ["c1"], none⟩]
      = some (["a1", "b1", "b2", "c1"], [none, some "B", some "C"]) := by rfl
example : fetch_all_comment_threads [(⟨some [], none⟩ : PageBody String)]
      = some ([], [none]) := by rfl
example :
    fetch_all_comment_threads [⟨some ["a"], some ""⟩, ⟨some ["b"], none⟩]
      = some (["a"], [none]) := by rfl

/-- A Python value as it appears in the record dictionaries: `None`, a
string, an integer, a float64 (held as an exact rational; the magnitudes
in play are exactly representable), or the float `NaN` that pandas
substitutes for missing data. -/
inductive JVal where
  | null : JVal
  | str : String → JVal
  | int : Int → JVal
  | float : ℚ → JVal
  | nan : JVal
deriving DecidableEq, Repr

/-- A Python dictionary with string keys, as an ordered key/value list. -/
abbrev PyDict := List (String × JVal)

/-- Python `d.get(key)` on a dictionary whose keys are unique: first
matching entry, `none` when the key is missing. -/
def dictGet : PyDict → String → Option JVal
  | [], _ => none
  | (k, v) :: rest, key => if k = key then some v else dictGet rest key

/-- One raw comment-thread item with a well-formed nested snippet
(`item["snippet"]` and `["topLevelComment"]["snippet"]` present — the
precondition of `flatten_comment_thread`).  Each field is the optional
leaf the function reads with `.get`. -/
structure RawCommentItem where
  textDisplay : Option String
  publishedAt : Option String
  likeCount : Option Int
  totalReplyCount : Option Int
deriving DecidableEq, Repr

/-- A Python `.get` result placed in a dict: `None` becomes an explicit
null value under the key. -/
def jOfStr : Option String → JVal
  | none => .null
  | some s => .str s

/-- As `jOfStr`, for integer leaves. -/
def jOfInt : Option Int → JVal
  | none => .null
  | some n => .int n

/-- src/scraper.py lines 75–83, `flatten_comment_thread`: the literal
four-key dictionary the function returns.  `top.get(...)` yields `None`
(an explicit null, the key still present) for a missing leaf, while
`s.get("totalReplyCount", 0)` defaults to `0`. -/
def flatten_comment_thread (item : RawCommentItem) : PyDict :=
  [("text", jOfStr item.textDisplay),
   ("published_at", jOfStr item.publishedAt),
   ("like_count", jOfInt item.likeCount),
   ("reply_count", .int (item.totalReplyCount.getD 0))]

example :
    flatten_comment_thread ⟨some "hi", some "2020", none, none⟩
      = [("text", .str "hi"), ("published_at", .str "2020"),
         ("like_count", .null), ("reply_count", .int 0)] := by rfl

/-- Substring containment on character lists (Python `needle in hay`),
by structural recursion over the haystack. -/
def listContainsSub (needle : List Char) : List Char → Bool
  | [] => needle.isEmpty
  | c :: rest => needle.isPrefixOf (c :: rest) || listContainsSub needle rest

/-- Python `needle in hay` on strings. -/
def strContains (hay needle : String) : Bool :=
  listContainsSub needle.toList hay.toList

example : strContains "why is this bad?" "bad" = true := by rfl
example : strContains "not good at all" "not good" = true := by rfl
example : strContains "fine" "bad" = false := by rfl

/-- Python `s.lower()` (ASCII case folding, as `Char.toLower`; the
keyword sets are ASCII). -/
def pyLower (s : String) : String :=
  String.mk (s.toList.map Char.toLower)

/-- The negative-keyword list of src/classifier.py line 8. -/
def negative_keywords : List String :=
  ["bad", "worst", "hate", "not good", "terrible", "disagree"]

/-- The positive-keyword list of src/classifier.py line 10. -/
def positive_keywords : List String :=
  ["good", "love", "nice", "amazing", "agree", "great", "awesome"]

/-- src/classifier.py lines 4–19, `classify_comment`.  `polarity` is the
`TextBlob(comment).sentiment.polarity` oracle (an external statistical
model), supplied as a parameter and applied to the original, non-folded
text exactly as in the source; its values are exact rationals in
`[-1, 1]` in place of machine floats.  The keyword and question-mark
checks run on the case-folded text. -/
def classify_comment (polarity : String → ℚ) (comment : String) : String :=
  let text := pyLower comment
  if strContains text "?" then "question"
  else if negative_keywords.any (fun w => strContains text w) then "criticism"
  else if positive_keywords.any (fun w => strContains text w) then "affirmative"
  else
    let p := polarity comment
    if p > 1 / 5 then "affirmative"
    else if p < -(1 / 5) then "criticism"
    else "neutral"

example : classify_comment (fun _ => 0) "why is this BAD?" = "question" := by rfl
example : classify_comment (fun _ => 0) "bad but great" = "criticism" := by rfl
example : classify_comment (fun _ => 0) "Great stuff" = "affirmative" := by rfl

/-- Python `str(v)` on the values a record holds, as
`Series.astype(str)` renders them: `None` prints as `"None"`, strings
print as themselves, integers in the usual way, the missing-data marker
`NaN` as `"nan"`, and a float64 in a decimal form (rendered here from
the exact rational; the pipeline's `text` column holds only strings,
nulls and missing cells, so the float case is unreachable for scraped
data). -/
def pyStrOfJVal : JVal → String
  | .null => "None"
  | .str s => s
  | .int n => toString n
  | .float q => if q.den = 1 then toString q.num ++ ".0" else toString q.num ++ "/" ++ toString q.den
  | .nan => "nan"

/-- Collect the keys of one row that are not yet columns, in order. -/
def addCols (cols : List String) (row : PyDict) : List String :=
  row.foldl (fun cs kv => if kv.1 ∈ cs then cs else cs ++ [kv.1]) cols

/-- The column list of `pd.DataFrame(rows)`: every key of every row,
ordered by first appearance. -/
def dfColumns (rows : List PyDict) : List String :=
  rows.foldl addCols []

/-- The cell one row contributes to a column: its value under the key,
or the missing-data marker `NaN` when the row lacks the key. -/
def colCell (row : PyDict) (k : String) : JVal :=
  (dictGet row k).getD .nan

/-- A numeric cell (int or float). -/
def isNumCell : JVal → Bool
  | .int _ => true
  | .float _ => true
  | _ => false

/-- A cell holding missing data (`None` or `NaN`). -/
def isMissingCell : JVal → Bool
  | .null => true
  | .nan => true
  | _ => false

/-- pandas dtype inference for one column of `pd.DataFrame(list-of-dicts)`,
restricted to the value universe at hand.  A column of integers only
keeps dtype int64 and its values.  A numeric column with missing data
(or any float) is upcast to float64: integers become floats and
`None`/missing become `NaN` — this hits the pipeline's own
`like_count` column whenever some comments lack a like count.
Any other mix (a string present, or nothing but missing data) keeps
dtype object with the supplied values, missing cells staying `NaN`. -/
def coerceColumn (cells : List JVal) : List JVal :=
  if cells.all (fun c => match c with | .int _ => true | _ => false) then cells
  else if cells.all (fun c => isNumCell c || isMissingCell c) && cells.any isNumCell then
    cells.map (fun c => match c with
      | .int n => .float (n : ℚ)
      | .float q => .float q
      | _ => .nan)
  else cells

example : coerceColumn [.int 3, .int 7] = [.int 3, .int 7] := by rfl
example : coerceColumn [.int 3, .null] = [.float ((3 : Int) : ℚ), .nan] := by rfl
example : coerceColumn [.str "x", .null, .nan] = [.str "x", .null, .nan] := by rfl
example : coerceColumn [.null, .null] = [.null, .null] := by rfl

/-- Python `d[key] = v`: overwrite the entry in place when the key is
present, else append it at the end. -/
def dictSet : PyDict → String → JVal → PyDict
  | [], key, v => [(key, v)]
  | (k, w) :: rest, key, v =>
    if k = key then (key, v) :: rest else (k, w) :: dictSet rest key v

/-- src/classifier.py lines 21–24 (`classify_comments`) composed with
`classified_df.to_dict('records')` of src/app.py line 50: the contents
of the fresh record dictionaries the classification step produces.
`pd.DataFrame(comments)` lays the rows out in columns, coercing each
column's dtype per `coerceColumn` (so a `like_count` column mixing
integers and nulls comes back as floats and `NaN`s, not the source
values); `df["category"] = df["text"].astype(str).apply(classify_comment)`
sets the category column (overwriting it in place if one exists);
`to_dict('records')` then emits one new dictionary per row in column
order.  `df["text"]` presumes a text column exists, which the
flattener's records guarantee. -/
def classify_comments (polarity : String → ℚ) (comments : List PyDict) : List PyDict :=
  let cols := dfColumns comments
  let coerced := cols.map (fun k => (k, coerceColumn (comments.map (fun row => colCell row k))))
  let textCells := coerceColumn (comments.map (fun row => colCell row "text"))
  (List.range comments.length).map (fun i =>
    dictSet (coerced.map (fun kc => (kc.1, kc.2.getD i .nan)))
      "category"
      (.str (classify_comment polarity (pyStrOfJVal (textCells.getD i .nan)))))

example :
    classify_comments (fun _ => 0)
        [[("text", JVal.str "so bad"), ("like_count", JVal.int 3)],
         [("text", JVal.str "great"), ("like_count", JVal.null)]]
      = [[("text", JVal.str "so bad"), ("like_count", JVal.float ((3 : Int) : ℚ)),
          ("category", JVal.str "criticism")],
         [("text", JVal.str "great"), ("like_count", JVal.nan),
          ("category", JVal.str "affirmative")]] := by rfl

/-- `item.pop(key, None)`: drop the entry under `key`, if any (keys are
unique in these dictionaries). -/
def dictRemove : PyDict → String → PyDict
  | [], _ => []
  | (k, v) :: rest, key => if k = key then rest else (k, v) :: dictRemove rest key

/-- The category-to-label table of src/app.py lines 53–61, applied to
`item.get('category', 'other').lower()`. -/
def normalize_category (category : String) : String :=
  let c := pyLower category
  if c = "question" then "Question"
  else if c = "criticism" then "Criticism"
  else if c = "affirmative" ∨ c = "affirmation" then "Affirmation"
  else "Other"

/-- The body of the normalization loop of src/app.py lines 52–63 on one
record dictionary: read `item.get('category', 'other')`, set
`item['label']` to the normalized name, then `item.pop('category',
None)`. -/
def normalize_item (item : PyDict) : PyDict :=
  let category := ((dictGet item "category").map pyStrOfJVal).getD "other"
  dictRemove (dictSet item "label" (.str (normalize_category category))) "category"

/-- A heap of Python record dictionaries.  An address (list index)
stands for a dict reference, making mutation and sharing explicit:
`process_youtube_video` holds references to the source records and to
the fresh records `to_dict('records')` creates, and the normalization
loop mutates the latter in place.  Reading an unallocated address is a
modelling artifact and yields the empty dict. -/
abbrev Heap := List PyDict

/-- Dereference one record. -/
def heapRead (h : Heap) (a : Nat) : PyDict := h.getD a []

/-- In-place update of the record at address `a`. -/
def heapWrite (h : Heap) (a : Nat) (d : PyDict) : Heap := h.set a d

/-- The classification step of `process_youtube_video`
(src/app.py lines 45–63) over the explicit heap.  `comments` lists the
references to the source records.  `classify_comments` only reads them;
`to_dict('records')` allocates one fresh dictionary per row (here: at
the fresh addresses past the end of the heap); the normalization loop
then mutates each fresh dictionary in place (`item['label'] = ...`,
`item.pop('category', None)`).  Returns the final heap and the
references to the produced records. -/
def process_classification (polarity : String → ℚ) (h : Heap) (comments : List Nat) :
    Heap × List Nat :=
  let rows := classify_comments polarity (comments.map (heapRead h))
  let outs := (List.range rows.length).map (fun i => h.length + i)
  let h1 := h ++ rows
  let h2 := outs.foldl (fun acc o => heapWrite acc o (normalize_item (heapRead acc o))) h1
  (h2, outs)

example :
    (process_classification (fun _ => 0) [[("text", JVal.str "so bad")]] [0]).2 = [1] := by rfl
example :
    heapRead (process_classification (fun _ => 0) [[("text", JVal.str "so bad")]] [0]).1 0
      = [("text", JVal.str "so bad")] := by rfl
example :
    heapRead (process_classification (fun _ => 0) [[("text", JVal.str "so bad")]] [0]).1 1
      = [("text", JVal.str "so bad"), ("label", JVal.str "Criticism")] := by rfl

/-- C1 counterexample.  For the canonical-host URL with path
`/shorts/ABC/extra` (no `v` query parameter), the path segments are
`["", "shorts", "ABC", "extra"]`, so the segment immediately following
the `shorts` marker is `"ABC"`; the code instead returns the last
segment, `"extra"`. -/
theorem C1_counterexample :
    splitSlash "/shorts/ABC/extra" = ["", "shorts", "ABC", "extra"] ∧
      extract_video_id ⟨some "www.youtube.com", "/shorts/ABC/extra", []⟩ = .ok "extra" ∧
      extract_video_id ⟨some "www.youtube.com", "/shorts/ABC/extra", []⟩ ≠ .ok "ABC" :=
  ⟨rfl, rfl, fun h => absurd (Except.ok.inj h) (by decide)⟩

/-- C1 (amended): on a short-link host, `extract_video_id` returns the
path with leading `/` stripped; on a canonical platform host it returns
the first `v` query-parameter value when one is present, otherwise the
LAST path segment when the segments contain the `shorts` marker (this
equals the segment immediately following the marker exactly when the
marker is the penultimate segment), and fails with `invalidURL` when
neither shape applies; any other host fails with `invalidURL`. -/
theorem C1_resolver_correct :
    ∀ u : ParsedURL,
      ((u.hostname = some "youtu.be" ∨ u.hostname = some "www.youtu.be") →
        extract_video_id u = .ok (lstripSlashes u.path)) ∧
      ((u.hostname = some "www.youtube.com" ∨ u.hostname = some "youtube.com"
          ∨ u.hostname = some "m.youtube.com") →
        (∀ v vs, qsValues u.query "v" = v :: vs → extract_video_id u = .ok v) ∧
        (qsValues u.query "v" = [] → "shorts" ∈ splitSlash u.path →
          extract_video_id u = .ok ((splitSlash u.path).getLastD "")) ∧
        (qsValues u.query "v" = [] → "shorts" ∉ splitSlash u.path →
          extract_video_id u = .error .invalidURL)) ∧
      (¬(u.hostname = some "youtu.be" ∨ u.hostname = some "www.youtu.be") →
        ¬(u.hostname = some "www.youtube.com" ∨ u.hostname = some "youtube.com"
            ∨ u.hostname = some "m.youtube.com") →
        extract_video_id u = .error .invalidURL) := by
  intro u
  refine ⟨?_, ?_, ?_⟩
  · intro h
    unfold extract_video_id
    rw [if_pos h]
  · intro h
    have hshort : ¬(u.hostname = some "youtu.be" ∨ u.hostname = some "www.youtu.be") := by
      rcases h with h | h | h <;> rw [h] <;> decide
    refine ⟨?_, ?_, ?_⟩
    · intro v vs hv
      unfold extract_video_id
      rw [if_neg hshort, if_pos h, hv]
    · intro h0 hs
      unfold extract_video_id
      rw [if_neg hshort, if_pos h, h0]
      exact if_pos hs
    · intro h0 hs
      unfold extract_video_id
      rw [if_neg hshort, if_pos h, h0]
      exact if_neg hs
  · intro h1 h2
    unfold extract_video_id
    rw [if_neg h1, if_neg h2]

/-- Witness for C1: each clause of the amended resolver theorem applied
at a concrete parsed URL. -/
theorem C1_resolver_correct_witness :
    extract_video_id ⟨some "youtu.be", "/ABC123", []⟩ = .ok "ABC123" ∧
      extract_video_id ⟨some "m.youtube.com", "/watch", [("v", "ID1")]⟩ = .ok "ID1" ∧
      extract_video_id ⟨some "youtube.com", "/shorts/XYZ", []⟩ = .ok "XYZ" ∧
      extract_video_id ⟨some "example.com", "/watch", [("v", "ID1")]⟩ = .error .invalidURL ∧
      extract_video_id ⟨some "youtube.com", "/about", []⟩ = .error .invalidURL := by
  refine ⟨?_, ?_, ?_, ?_, ?_⟩
  · exact ((C1_resolver_correct ⟨some "youtu.be", "/ABC123", []⟩).1 (Or.inl rfl)).trans (by rfl)
  · exact ((C1_resolver_correct ⟨some "m.youtube.com", "/watch", [("v", "ID1")]⟩).2.1
      (Or.inr (Or.inr rfl))).1 "ID1" [] rfl
  · exact (((C1_resolver_correct ⟨some "youtube.com", "/shorts/XYZ", []⟩).2.1
      (Or.inr (Or.inl rfl))).2.1 rfl (by decide)).trans (by rfl)
  · exact (C1_resolver_correct ⟨some "example.com", "/watch", [("v", "ID1")]⟩).2.2
      (by decide) (by decide)
  · exact ((C1_resolver_correct ⟨some "youtube.com", "/about", []⟩).2.1
      (Or.inr (Or.inl rfl))).2.2 rfl (by decide)

/-- C10: a short-link-host URL whose path is empty or consists only of
`/` separators does not fail: `extract_video_id` returns the empty
identifier, since `lstrip("/")` erases the whole path. -/
theorem C10_short_link_empty_path :
    ∀ u : ParsedURL, (u.hostname = some "youtu.be" ∨ u.hostname = some "www.youtu.be") →
      (∀ c ∈ u.path.toList, c = '/') → extract_video_id u = .ok "" := by
  intro u hh hp
  unfold extract_video_id
  rw [if_pos hh]
  have hnil : u.path.toList.dropWhile (fun c => c = '/') = [] :=
    List.dropWhile_eq_nil_iff.mpr (by intro x hx; simp [hp x hx])
  unfold lstripSlashes
  rw [hnil]

/-- Witness for C10: the parse of `"https://youtu.be/"` (hostname
`youtu.be`, path `"/"`) resolves to the empty identifier. -/
theorem C10_witness : extract_video_id ⟨some "youtu.be", "/", []⟩ = .ok "" :=
  C10_short_link_empty_path ⟨some "youtu.be", "/", []⟩ (Or.inl rfl) (by decide)

/-- The head of `dropWhile p` never satisfies `p`. -/
lemma head?_dropWhile_false {α : Type} (p : α → Bool) :
    ∀ (l : List α) (c : α), (l.dropWhile p).head? = some c → p c = false := by
  intro l
  induction l with
  | nil => intro c h; cases h
  | cons a rest ih =>
    intro c h
    rw [List.dropWhile_cons] at h
    by_cases ha : p a = true
    · rw [if_pos ha] at h
      exact ih c h
    · rw [if_neg ha] at h
      cases h
      exact Bool.not_eq_true _ |>.mp ha

/-- Every character surviving the sanitization filter is allowed. -/
lemma mem_rstrip_filter_allowed (l : List Char) :
    ∀ c ∈ (rstripPy (String.mk (l.filter allowedChar))).toList, allowedChar c = true := by
  intro c hc
  unfold rstripPy at hc
  have h1 : c ∈ (l.filter allowedChar).reverse.dropWhile Char.isWhitespace := by
    simpa using hc
  have h2 : c ∈ (l.filter allowedChar).reverse :=
    ((l.filter allowedChar).reverse.dropWhile_sublist Char.isWhitespace).mem h1
  exact List.of_mem_filter (List.mem_reverse.mp h2)

/-- C2 counterexample.  The spec's example title `" My Video! "` does
not sanitize to `"My Video"`: only trailing whitespace is stripped
(`rstrip`), so the leading space survives and the result is
`" My Video"`. -/
theorem C2_counterexample :
    get_video_title ⟨200, [" My Video! "]⟩ = .ok " My Video" ∧
      get_video_title ⟨200, [" My Video! "]⟩ ≠ .ok "My Video" ∧
      sanitizeTitle " My Video! " = " My Video" :=
  ⟨rfl, fun h => absurd (Except.ok.inj h) (by decide), rfl⟩

/-- C2 (amended): for a 200 response the metadata lookup returns the
title restricted to alphanumerics, space, hyphen and underscore with
trailing whitespace trimmed (leading whitespace is kept), the fixed
fallback literal replacing an empty result; the input `" My Video! "`
sanitizes to `" My Video"`. -/
theorem C2_title_sanitized :
    (∀ title : String,
      get_video_title ⟨200, [title]⟩ = .ok (sanitizeTitle title) ∧
      (∀ c ∈ (sanitizeTitle title).toList, allowedChar c = true) ∧
      sanitizeTitle title ≠ "" ∧
      (rstripPy (String.mk (title.toList.filter allowedChar)) = "" →
        sanitizeTitle title = "youtube_comments") ∧
      (∀ c, (sanitizeTitle title).toList.getLast? = some c → c.isWhitespace = false)) ∧
    get_video_title ⟨200, [" My Video! "]⟩ = .ok " My Video" := by
  refine ⟨?_, rfl⟩
  intro title
  by_cases hempty : rstripPy (String.mk (title.toList.filter allowedChar)) = ""
  · have hfb : sanitizeTitle title = "youtube_comments" := by
      unfold sanitizeTitle
      rw [if_pos hempty]
    refine ⟨rfl, ?_, ?_, fun _ => hfb, ?_⟩
    · rw [hfb]; decide
    · rw [hfb]; decide
    · rw [hfb]
      intro c hc
      rw [show ("youtube_comments".toList.getLast?) = some 's' from rfl] at hc
      cases hc
      decide
  · have hkeep : sanitizeTitle title = rstripPy (String.mk (title.toList.filter allowedChar)) := by
      unfold sanitizeTitle
      rw [if_neg hempty]
    refine ⟨rfl, ?_, ?_, fun h => absurd h hempty, ?_⟩
    · rw [hkeep]
      exact mem_rstrip_filter_allowed title.toList
    · rw [hkeep]; exact hempty
    · rw [hkeep]
      intro c hc
      unfold rstripPy at hc
      have : ((title.toList.filter allowedChar).reverse.dropWhile Char.isWhitespace).head?
          = some c := by
        rw [← List.getLast?_reverse]
        simpa using hc
      exact head?_dropWhile_false Char.isWhitespace _ c this

/-- Witness for C2: the general sanitization theorem applied at the
titles `"Tutorial: part 2! "` and `"???"`. -/
theorem C2_title_sanitized_witness :
    get_video_title ⟨200, ["Tutorial: part 2! "]⟩ = .ok (sanitizeTitle "Tutorial: part 2! ") ∧
      sanitizeTitle "Tutorial: part 2! " = "Tutorial part 2" ∧
      sanitizeTitle "???" ≠ "" ∧
      sanitizeTitle "???" = "youtube_comments" :=
  ⟨((C2_title_sanitized).1 "Tutorial: part 2! ").1, by rfl,
   ((C2_title_sanitized).1 "???").2.2.1,
   ((C2_title_sanitized).1 "???").2.2.2.1 (by rfl)⟩

/-- C3 counterexample.  A response with status 204 is neither 200 nor
transient nor 4xx/5xx, so `raise_for_status` is a no-op and the loop
retries (without sleeping) instead of failing immediately: six requests
are issued and the run ends in `retriesExhausted 204`, not
`remoteAPIError 204` after one request as the claim states. -/
theorem C3_counterexample :
    exponential_backoff_request (fun _ => Response.mk 204 ()) 6 (3 / 2)
        = ⟨.error (.retriesExhausted 204), 6, []⟩ ∧
      (exponential_backoff_request (fun _ => Response.mk 204 ()) 6 (3 / 2)).result
        ≠ .error (.remoteAPIError 204) ∧
      (exponential_backoff_request (fun _ => Response.mk 204 ()) 6 (3 / 2)).requests ≠ 1 := by
  refine ⟨rfl, ?_, ?_⟩
  · rw [show (exponential_backoff_request (fun _ => Response.mk 204 ()) 6 (3 / 2)).result
        = .error (.retriesExhausted 204) from rfl]
    intro h
    exact absurd (Except.error.inj h) (by decide)
  · rw [show (exponential_backoff_request (fun _ => Response.mk 204 ()) 6 (3 / 2)).requests
        = 6 from rfl]
    decide

/-- C3 (amended): a first response whose status is in the 4xx/5xx range
but not in the transient set makes `exponential_backoff_request` fail
immediately with `remoteAPIError` carrying that status, after exactly
one request and no sleep; in particular a first response of 404 fails
with `remoteAPIError 404` after one request.  (A non-200 status outside
4xx/5xx, e.g. 204 or 304, is instead retried: see the
counterexample.) -/
theorem C3_hard_failure_immediate :
    (∀ (β : Type) (responses : Nat → Response β) (max_retries : Nat) (base : ℚ),
      0 < max_retries → raisesForStatus (responses 0).status = true →
      (responses 0).status ∉ transientStatuses →
      exponential_backoff_request responses max_retries base
        = ⟨.error (.remoteAPIError (responses 0).status), 1, []⟩) ∧
    exponential_backoff_request (fun _ => Response.mk 404 ()) 6 (3 / 2)
      = ⟨.error (.remoteAPIError 404), 1, []⟩ := by
  refine ⟨?_, rfl⟩
  intro β responses max_retries base hpos hraise htrans
  obtain ⟨fuel, rfl⟩ : ∃ f, max_retries = f + 1 := ⟨max_retries - 1, by omega⟩
  have h200 : ¬((responses 0).status = 200) := by
    intro h
    rw [h] at hraise
    exact absurd hraise (by decide)
  show exponential_backoff_request_aux responses base (fuel + 1) 0 none = _
  rw [exponential_backoff_request_aux]
  rw [if_neg h200, if_neg htrans, if_pos hraise]

/-- Witness for C3: the amended theorem applied to a fetcher whose first
response has status 418. -/
theorem C3_hard_failure_witness :
    exponential_backoff_request (fun _ => Response.mk 418 ()) 3 2
      = ⟨.error (.remoteAPIError 418), 1, []⟩ :=
  C3_hard_failure_immediate.1 Unit (fun _ => Response.mk 418 ()) 3 2 (by decide) (by decide)
    (by decide)

/-- C4 counterexample.  A 304 response is non-2xx, yet
`resp.raise_for_status()` raises only on 4xx/5xx, so with a nonempty
item list `get_video_title` returns the title instead of failing with
`remoteAPIError 304`. -/
theorem C4_counterexample :
    get_video_title ⟨304, ["T"]⟩ = .ok "T" ∧
      get_video_title ⟨304, ["T"]⟩ ≠ .error (.remoteAPIError 304) :=
  ⟨rfl, fun h => Except.noConfusion h⟩

/-- C4 (amended): the metadata lookup fails with `remoteAPIError`
exactly on 4xx/5xx statuses (not on every non-2xx status), and fails
with the terminal `notFound` when a 2xx response carries an empty item
list. -/
theorem C4_metadata_errors :
    ∀ (status : Nat) (items : List String),
      (400 ≤ status → status < 600 →
        get_video_title ⟨status, items⟩ = .error (.remoteAPIError status)) ∧
      (200 ≤ status → status < 300 →
        get_video_title ⟨status, []⟩ = .error .notFound) := by
  intro status items
  constructor
  · intro h1 h2
    have hr : raisesForStatus status = true := by
      simp only [raisesForStatus, Bool.and_eq_true, decide_eq_true_eq]
      omega
    unfold get_video_title
    rw [if_pos hr]
  · intro h1 h2
    have hr : raisesForStatus status = false := by
      simp only [raisesForStatus, Bool.and_eq_false_iff, decide_eq_false_iff_not]
      omega
    simp [get_video_title, hr]

/-- Witness for C4: the amended theorem applied at status 500 with one
item and at status 200 with no items. -/
theorem C4_metadata_errors_witness :
    get_video_title ⟨500, ["T"]⟩ = .error (.remoteAPIError 500) ∧
      get_video_title ⟨200, []⟩ = .error .notFound :=
  ⟨(C4_metadata_errors 500 ["T"]).1 (by decide) (by decide),
   (C4_metadata_errors 200 []).2 (by decide) (by decide)⟩

/-- When every response in the remaining window is transient, the retry
loop consumes all its fuel, sleeps the backoff amount after every
response, and ends with `retriesExhausted` on the last status. -/
lemma ebr_aux_all_transient {β : Type} (responses : Nat → Response β) (base : ℚ) :
    ∀ (fuel attempt : Nat) (last : Option Nat), 0 < fuel →
      (∀ i, i < fuel → (responses (attempt + i)).status ∈ transientStatuses) →
      exponential_backoff_request_aux responses base fuel attempt last
        = ⟨.error (.retriesExhausted ((responses (attempt + fuel - 1)).status)), fuel,
           (List.range fuel).map (fun i => backoffWait base (attempt + i))⟩ := by
  intro fuel
  induction fuel with
  | zero => intro attempt last h _; exact absurd h (lt_irrefl 0)
  | succ f ih =>
    intro attempt last hpos htrans
    have h0 : (responses attempt).status ∈ transientStatuses := by
      have := htrans 0 (by omega)
      simpa using this
    have h200 : ¬((responses attempt).status = 200) := by
      intro h
      rw [h] at h0
      exact absurd h0 (by decide)
    rw [exponential_backoff_request_aux]
    rw [if_neg h200, if_pos h0]
    by_cases hf : f = 0
    · subst hf
      rw [exponential_backoff_request_aux]
      rw [show List.range 1 = [0] from rfl, List.map_cons, List.map_nil, Nat.add_zero]
      simp
    · have hf1 : 0 < f := Nat.pos_of_ne_zero hf
      have htrans1 : ∀ i, i < f → (responses (attempt + 1 + i)).status ∈ transientStatuses := by
        intro i hi
        have := htrans (i + 1) (by omega)
        have harg : attempt + (i + 1) = attempt + 1 + i := by omega
        rwa [harg] at this
      rw [ih (attempt + 1) (some (responses attempt).status) hf1 htrans1]
      have harg : attempt + 1 + f - 1 = attempt + (f + 1) - 1 := by omega
      rw [harg]
      have hmap : (List.range (f + 1)).map (fun i => backoffWait base (attempt + i))
          = backoffWait base attempt
            :: (List.range f).map (fun i => backoffWait base (attempt + 1 + i)) := by
        rw [List.range_succ_eq_map, List.map_cons, List.map_map]
        refine congrArg₂ _ (by rw [Nat.add_zero]) ?_
        refine List.map_congr_left ?_
        intro a _
        show backoffWait base (attempt + (a + 1)) = backoffWait base (attempt + 1 + a)
        rw [show attempt + (a + 1) = attempt + 1 + a from by omega]
      rw [hmap]

/-- C5: a run whose first `max_retries` statuses are all transient ends
with `retriesExhausted` on the last status after exactly `max_retries`
requests, sleeping `base ^ attempt + attempt * 0.5` after each response;
and the sequence 429, 429, 200 succeeds on the third attempt with
accumulated sleep equal to the sum of the first two backoff terms. -/
theorem C5_retry_backoff :
    (∀ (β : Type) (responses : Nat → Response β) (max_retries : Nat) (base : ℚ),
      0 < max_retries →
      (∀ i, i < max_retries → (responses i).status ∈ transientStatuses) →
      exponential_backoff_request responses max_retries base
        = ⟨.error (.retriesExhausted ((responses (max_retries - 1)).status)), max_retries,
           (List.range max_retries).map (backoffWait base)⟩) ∧
    ((exponential_backoff_request
        (fun i => if i < 2 then Response.mk 429 () else Response.mk 200 ()) 6 (3 / 2)).result
        = .ok (2, Response.mk 200 ()) ∧
      (exponential_backoff_request
        (fun i => if i < 2 then Response.mk 429 () else Response.mk 200 ()) 6 (3 / 2)).requests
        = 3 ∧
      (exponential_backoff_request
        (fun i => if i < 2 then Response.mk 429 () else Response.mk 200 ()) 6 (3 / 2)).sleeps
        = [backoffWait (3 / 2) 0, backoffWait (3 / 2) 1] ∧
      ((exponential_backoff_request
          (fun i => if i < 2 then Response.mk 429 () else Response.mk 200 ()) 6 (3 / 2)).sleeps).sum
        = backoffWait (3 / 2) 0 + backoffWait (3 / 2) 1) := by
  refine ⟨?_, rfl, rfl, rfl, ?_⟩
  · intro β responses max_retries base hpos htrans
    show exponential_backoff_request_aux responses base max_retries 0 none = _
    rw [ebr_aux_all_transient responses base max_retries 0 none hpos
      (by intro i hi; simpa using htrans i hi)]
    simp [Nat.zero_add]
  · rw [show (exponential_backoff_request
        (fun i => if i < 2 then Response.mk 429 () else Response.mk 200 ()) 6 (3 / 2)).sleeps
        = [backoffWait (3 / 2) 0, backoffWait (3 / 2) 1] from rfl]
    simp

/-- Witness for C5: the general clause applied to a fetcher always
returning 500 with two attempts allowed. -/
theorem C5_retry_backoff_witness :
    exponential_backoff_request (fun _ => Response.mk 500 ()) 2 (3 / 2)
      = ⟨.error (.retriesExhausted 500), 2, (List.range 2).map (backoffWait (3 / 2))⟩ :=
  C5_retry_backoff.1 Unit (fun _ => Response.mk 500 ()) 2 (3 / 2) (by decide)
    (fun _ _ => (by decide : (500 : Nat) ∈ transientStatuses))

/-- Chain run of the pagination loop: when every page but the last
carries a nonempty token and the last carries none, the loop walks the
whole list, returning all items in arrival order and sending one
`pageToken` per request — the current token first, then each page's
token in order. -/
lemma fetch_all_loop_cons {α : Type} (p : PageBody α) (rest : List (PageBody α))
    (tok : Option String) :
    fetch_all_loop (p :: rest) tok
      = match truthyToken p.nextPageToken with
        | none => some (p.items.getD [], [tok])
        | some t =>
          match fetch_all_loop rest (some t) with
          | none => none
          | some r => some (p.items.getD [] ++ r.1, tok :: r.2) := rfl

lemma fetch_all_loop_chain {α : Type} :
    ∀ (pages : List (PageBody α)) (tok : Option String) (h : pages ≠ []),
      (∀ p ∈ pages.dropLast, ∃ t, p.nextPageToken = some t ∧ t ≠ "") →
      (pages.getLast h).nextPageToken = none →
      fetch_all_loop pages tok
        = some ((pages.map (fun p => p.items.getD [])).flatten,
                tok :: pages.dropLast.map (fun p => p.nextPageToken)) := by
  intro pages
  induction pages with
  | nil => intro tok h; exact absurd rfl h
  | cons p rest ih =>
    intro tok h hmid hlast
    cases rest with
    | nil =>
      have hnone : p.nextPageToken = none := hlast
      simp [fetch_all_loop, hnone, truthyToken]
    | cons q rest2 =>
      obtain ⟨t, ht, hne⟩ := hmid p (by rw [List.dropLast_cons₂]; exact List.mem_cons_self p _)
      have htt : truthyToken p.nextPageToken = some t := by
        rw [ht]
        show (if t = "" then (none : Option String) else some t) = some t
        rw [if_neg hne]
      have hmid2 : ∀ p' ∈ (q :: rest2).dropLast, ∃ t, p'.nextPageToken = some t ∧ t ≠ "" := by
        intro p' hp'
        exact hmid p' (by rw [List.dropLast_cons₂]; exact List.mem_cons_of_mem _ hp')
      have hlast2 : ((q :: rest2).getLast (List.cons_ne_nil q rest2)).nextPageToken = none := by
        rw [← List.getLast_cons (List.cons_ne_nil q rest2)]
        exact hlast
      rw [fetch_all_loop_cons, htt]
      show (match fetch_all_loop (q :: rest2) (some t) with
            | none => none
            | some r => some (p.items.getD [] ++ r.1, tok :: r.2))
          = _
      rw [ih (some t) (List.cons_ne_nil q rest2) hmid2 hlast2]
      simp [List.dropLast_cons₂, ht]

/-- C6 (amended): for a finite chain of pages in which every non-last
page carries a nonempty continuation token (the loop treats an
empty-string token like an absent one — Python falsiness) and only the
last page lacks one, `fetch_all_comment_threads` terminates with the
concatenation of all pages' items in arrival order, issuing exactly one
request per page — no token for the first, then each page's token in
chain order; a single page with no items and no token yields the empty
sequence, not an error. -/
theorem C6_pagination :
    (∀ (α : Type) (pages : List (PageBody α)) (h : pages ≠ []),
      (∀ p ∈ pages.dropLast, ∃ t, p.nextPageToken = some t ∧ t ≠ "") →
      (pages.getLast h).nextPageToken = none →
      fetch_all_comment_threads pages
        = some ((pages.map (fun p => p.items.getD [])).flatten,
                none :: pages.dropLast.map (fun p => p.nextPageToken)) ∧
      (none :: pages.dropLast.map (fun p => p.nextPageToken)).length = pages.length) ∧
    fetch_all_comment_threads [(⟨some [], none⟩ : PageBody String)] = some ([], [none]) := by
  refine ⟨?_, rfl⟩
  intro α pages h hmid hlast
  refine ⟨fetch_all_loop_chain pages none h hmid hlast, ?_⟩
  have hlen : pages.dropLast.length = pages.length - 1 := List.length_dropLast pages
  have hpos : 0 < pages.length := List.length_pos.mpr h
  simp only [List.length_cons, List.length_map, hlen]
  omega

/-- C6 counterexample.  A two-page chain whose first page carries the
empty-string token `""` — a present token, per the claim — stops after
the first page: the loop's `if not next_token: break` treats `""` as
absent, so only the first page's items are returned and one request is
made, not two. -/
theorem C6_counterexample :
    fetch_all_comment_threads [⟨some ["a"], some ""⟩, ⟨some ["b"], none⟩]
        = some (["a"], [none]) ∧
      fetch_all_comment_threads [⟨some ["a"], some ""⟩, ⟨some ["b"], none⟩]
        ≠ some (["a", "b"], [none, some ""]) := by
  exact ⟨rfl, by decide⟩

/-- Witness for C6: the amended theorem applied to a concrete two-page
chain `B → (none)`. -/
theorem C6_pagination_witness :
    fetch_all_comment_threads
        [(⟨some ["x"], some "B"⟩ : PageBody String), ⟨some ["y", "z"], none⟩]
      = some (["x", "y", "z"], [none, some "B"]) :=
  ((C6_pagination.1 String [⟨some ["x"], some "B"⟩, ⟨some ["y", "z"], none⟩]
      (List.cons_ne_nil _ _)
      (by
        intro p hp
        simp at hp
        subst hp
        exact ⟨"B", rfl, by decide⟩)
      (by rfl)).1).trans (by decide)

/-- A one-character needle is contained in a list exactly when the
character occurs in it. -/
lemma listContainsSub_singleton_iff (a : Char) :
    ∀ l : List Char, listContainsSub [a] l = true ↔ a ∈ l := by
  intro l
  induction l with
  | nil =>
    constructor
    · intro h; cases h
    · intro h; cases h
  | cons c rest ih =>
    constructor
    · intro h
      rw [listContainsSub, Bool.or_eq_true] at h
      rcases h with h | h
      · simp only [List.isPrefixOf, Bool.and_eq_true, beq_iff_eq] at h
        exact h.1 ▸ List.mem_cons_self a rest
      · exact List.mem_cons_of_mem c (ih.mp h)
    · intro h
      rw [listContainsSub, Bool.or_eq_true]
      rcases List.mem_cons.mp h with h | h
      · subst h
        left
        simp [List.isPrefixOf]
      · exact Or.inr (ih.mpr h)

/-- Lowercasing does not create or destroy question marks: `toLower`
fixes `'?'` and maps no other character to it (it only moves basic latin
capitals into `'a'`–`'z'`). -/
lemma toLower_eq_qmark (a : Char) : a.toLower = '?' ↔ a = '?' := by
  constructor
  · intro h
    unfold Char.toLower at h
    by_cases hc : a.toNat ≥ 65 ∧ a.toNat ≤ 90
    · rw [if_pos hc] at h
      exfalso
      have h63 : (Char.ofNat (a.toNat + 32)).toNat = 63 := by rw [h]; rfl
      have hv : (a.toNat + 32).isValidChar := Or.inl (by omega)
      rw [Char.ofNat, dif_pos hv] at h63
      have hn : (Char.ofNatAux (a.toNat + 32) hv).toNat = a.toNat + 32 := rfl
      omega
    · rwa [if_neg hc] at h
  · intro h
    subst h
    rfl

/-- The case-folded text contains a question mark exactly when the
original text does. -/
lemma strContains_lower_qmark (c : String) :
    strContains (pyLower c) "?" = true ↔ '?' ∈ c.toList := by
  have h1 : strContains (pyLower c) "?" = listContainsSub ['?'] (c.toList.map Char.toLower) :=
    rfl
  rw [h1, listContainsSub_singleton_iff]
  constructor
  · intro h
    obtain ⟨a, ha, hlow⟩ := List.mem_map.mp h
    exact ((toLower_eq_qmark a).mp hlow) ▸ ha
  · intro h
    have := List.mem_map_of_mem Char.toLower h
    rwa [show Char.toLower '?' = '?' from rfl] at this

/-- C7: the rule cascade of `classify_comment` applies in order with
first match winning.  A question mark in the text yields `question`
regardless of keywords; with no question mark, a negative-keyword hit
yields `criticism` even when positive keywords are also present; a
positive-keyword hit with no negative hit yields `affirmative`; and only
when nothing matched does the polarity fallback run, with `affirmative`
above 1/5, `criticism` below −1/5 and `neutral` strictly between.
(src/app.py maps these strings to the spec labels Question, Criticism,
Affirmation, Other via `normalize_category`.) -/
theorem C7_classifier_cascade :
    ∀ (polarity : String → ℚ) (c : String),
      (strContains (pyLower c) "?" = true ↔ '?' ∈ c.toList) ∧
      ('?' ∈ c.toList → classify_comment polarity c = "question") ∧
      ('?' ∉ c.toList →
        negative_keywords.any (fun w => strContains (pyLower c) w) = true →
        classify_comment polarity c = "criticism") ∧
      ('?' ∉ c.toList →
        negative_keywords.any (fun w => strContains (pyLower c) w) = false →
        positive_keywords.any (fun w => strContains (pyLower c) w) = true →
        classify_comment polarity c = "affirmative") ∧
      ('?' ∉ c.toList →
        negative_keywords.any (fun w => strContains (pyLower c) w) = false →
        positive_keywords.any (fun w => strContains (pyLower c) w) = false →
        ((polarity c > 1 / 5 → classify_comment polarity c = "affirmative") ∧
         (polarity c < -(1 / 5) → classify_comment polarity c = "criticism") ∧
         (-(1 / 5) < polarity c → polarity c < 1 / 5 →
           classify_comment polarity c = "neutral"))) := by
  intro polarity c
  refine ⟨strContains_lower_qmark c, ?_, ?_, ?_, ?_⟩
  · intro hq
    have h : strContains (pyLower c) "?" = true := (strContains_lower_qmark c).mpr hq
    simp [classify_comment, h]
  · intro hq hneg
    have h : strContains (pyLower c) "?" = false :=
      Bool.eq_false_iff.mpr (fun ht => hq ((strContains_lower_qmark c).mp ht))
    simp [classify_comment, h, hneg]
  · intro hq hneg hpos
    have h : strContains (pyLower c) "?" = false :=
      Bool.eq_false_iff.mpr (fun ht => hq ((strContains_lower_qmark c).mp ht))
    simp [classify_comment, h, hneg, hpos]
  · intro hq hneg hpos
    have h : strContains (pyLower c) "?" = false :=
      Bool.eq_false_iff.mpr (fun ht => hq ((strContains_lower_qmark c).mp ht))
    have e1 : classify_comment polarity c
        = (if polarity c > 1 / 5 then "affirmative"
           else if polarity c < -(1 / 5) then "criticism" else "neutral") := by
      simp [classify_comment, h, hneg, hpos]
    refine ⟨?_, ?_, ?_⟩
    · intro hp
      rw [e1, if_pos hp]
    · intro hp
      have hnotgt : ¬(polarity c > 1 / 5) := by
        intro hgt
        linarith
      rw [e1, if_neg hnotgt, if_pos hp]
    · intro h1 h2
      have hnotgt : ¬(polarity c > 1 / 5) := not_lt.mpr (le_of_lt h2)
      have hnotlt : ¬(polarity c < -(1 / 5)) := not_lt.mpr (le_of_lt h1)
      rw [e1, if_neg hnotgt, if_neg hnotlt]

/-- Witness for C7: the cascade theorem applied at `"why is this
bad?"`, `"bad but great"` and a neutral sentence under two polarity
oracles. -/
theorem C7_classifier_witness :
    classify_comment (fun _ => 0) "why is this bad?" = "question" ∧
      classify_comment (fun _ => 0) "bad but great" = "criticism" ∧
      classify_comment (fun _ => (3 : ℚ) / 4) "the weather today" = "affirmative" ∧
      classify_comment (fun _ => 0) "the weather today" = "neutral" := by
  refine ⟨?_, ?_, ?_, ?_⟩
  · exact (C7_classifier_cascade (fun _ => 0) "why is this bad?").2.1 (by decide)
  · exact (C7_classifier_cascade (fun _ => 0) "bad but great").2.2.1 (by decide) (by rfl)
  · exact ((C7_classifier_cascade (fun _ => (3 : ℚ) / 4) "the weather today").2.2.2.2
      (by decide) rfl rfl).1 (by norm_num)
  · exact ((C7_classifier_cascade (fun _ => 0) "the weather today").2.2.2.2
      (by decide) rfl rfl).2.2 (by norm_num) (by norm_num)

/-- C8: flattening a well-formed raw item defaults a missing
`totalReplyCount` to the integer 0, maps a missing `likeCount` to an
explicit null under a present `like_count` key, and always emits a
`text` key — an explicit null when the source text is absent. -/
theorem C8_flatten_defaults :
    ∀ item : RawCommentItem,
      (item.totalReplyCount = none →
        dictGet (flatten_comment_thread item) "reply_count" = some (.int 0)) ∧
      (item.likeCount = none →
        dictGet (flatten_comment_thread item) "like_count" = some .null) ∧
      (∃ v, dictGet (flatten_comment_thread item) "text" = some v) ∧
      (item.textDisplay = none →
        dictGet (flatten_comment_thread item) "text" = some .null) := by
  intro item
  refine ⟨?_, ?_, ?_, ?_⟩
  · intro h
    simp [flatten_comment_thread, dictGet, h]
  · intro h
    simp [flatten_comment_thread, dictGet, h, jOfInt]
  · exact ⟨jOfStr item.textDisplay, by simp [flatten_comment_thread, dictGet]⟩
  · intro h
    simp [flatten_comment_thread, dictGet, h, jOfStr]

/-- Witness for C8: the flattening theorem applied to a raw item with
every optional leaf absent. -/
theorem C8_flatten_witness :
    dictGet (flatten_comment_thread ⟨none, none, none, none⟩) "reply_count" = some (.int 0) ∧
      dictGet (flatten_comment_thread ⟨none, none, none, none⟩) "like_count" = some .null ∧
      dictGet (flatten_comment_thread ⟨none, none, none, none⟩) "text" = some .null :=
  ⟨(C8_flatten_defaults ⟨none, none, none, none⟩).1 rfl,
   (C8_flatten_defaults ⟨none, none, none, none⟩).2.1 rfl,
   (C8_flatten_defaults ⟨none, none, none, none⟩).2.2.2 rfl⟩

/-- Reading below the original length is unaffected by appended
records. -/
lemma heapRead_append_left :
    ∀ (h t : Heap) (a : Nat), a < h.length → heapRead (h ++ t) a = heapRead h a := by
  intro h
  induction h with
  | nil => intro t a ha; simp at ha
  | cons d h2 ih =>
    intro t a ha
    cases a with
    | zero => rfl
    | succ b =>
      show heapRead (h2 ++ t) b = heapRead h2 b
      refine ih t b ?_
      simp only [List.length_cons] at ha
      omega

/-- Reading at an offset past the original length lands in the appended
records. -/
lemma heapRead_append_right :
    ∀ (h t : Heap) (i : Nat), heapRead (h ++ t) (h.length + i) = heapRead t i := by
  intro h
  induction h with
  | nil => intro t i; show heapRead t (0 + i) = heapRead t i; rw [Nat.zero_add]
  | cons d h2 ih =>
    intro t i
    have e : (d :: h2).length + i = (h2.length + i) + 1 := by
      simp only [List.length_cons]
      omega
    rw [e]
    show heapRead (h2 ++ t) (h2.length + i) = heapRead t i
    exact ih t i

/-- A write elsewhere does not change what a reference sees. -/
lemma heapRead_write_ne :
    ∀ (h : Heap) (o a : Nat) (d : PyDict), a ≠ o →
      heapRead (heapWrite h o d) a = heapRead h a := by
  intro h
  induction h with
  | nil => intro o a d _; rfl
  | cons x h2 ih =>
    intro o a d hne
    cases o with
    | zero =>
      cases a with
      | zero => exact absurd rfl hne
      | succ b => rfl
    | succ m =>
      cases a with
      | zero => rfl
      | succ b => exact ih m b d (fun he => hne (by rw [he]))

/-- A write to a valid address is what a subsequent read of it sees. -/
lemma heapRead_write_self :
    ∀ (h : Heap) (o : Nat) (d : PyDict), o < h.length →
      heapRead (heapWrite h o d) o = d := by
  intro h
  induction h with
  | nil => intro o d ho; simp at ho
  | cons x h2 ih =>
    intro o d ho
    cases o with
    | zero => rfl
    | succ m =>
      show heapRead (heapWrite h2 m d) m = d
      refine ih m d ?_
      simp only [List.length_cons] at ho
      omega

/-- Writes do not change the heap's extent. -/
lemma heapWrite_length (h : Heap) (o : Nat) (d : PyDict) :
    (heapWrite h o d).length = h.length := by
  simp [heapWrite]

/-- The normalization loop leaves every reference outside its worklist
unchanged. -/
lemma foldl_write_frame :
    ∀ (outs : List Nat) (hh : Heap) (a : Nat), (∀ o ∈ outs, a ≠ o) →
      heapRead (outs.foldl (fun acc o => heapWrite acc o (normalize_item (heapRead acc o))) hh) a
        = heapRead hh a := by
  intro outs
  induction outs with
  | nil => intro hh a _; rfl
  | cons o rest ih =>
    intro hh a hne
    rw [List.foldl_cons, ih _ a (fun r hr => hne r (List.mem_cons_of_mem _ hr))]
    exact heapRead_write_ne hh o a _ (hne o (List.mem_cons_self _ _))

/-- After the normalization loop, each worklist reference (the
addresses being distinct and allocated) holds the normalized version of
what it held before the loop. -/
lemma foldl_write_each :
    ∀ (outs : List Nat) (hh : Heap), outs.Nodup → (∀ o ∈ outs, o < hh.length) →
      ∀ o ∈ outs,
        heapRead
            (outs.foldl (fun acc o => heapWrite acc o (normalize_item (heapRead acc o))) hh) o
          = normalize_item (heapRead hh o) := by
  intro outs
  induction outs with
  | nil => intro hh _ _ o ho; cases ho
  | cons o2 rest ih =>
    intro hh hnd hlt o ho
    obtain ⟨hno, hndr⟩ := List.nodup_cons.mp hnd
    rw [List.foldl_cons]
    rcases List.mem_cons.mp ho with rfl | hmem
    · rw [foldl_write_frame rest _ o (fun r hr he => hno (he ▸ hr))]
      exact heapRead_write_self hh o _ (hlt o (List.mem_cons_self _ _))
    · rw [ih (heapWrite hh o2 (normalize_item (heapRead hh o2))) hndr
        (fun r hr => by rw [heapWrite_length]; exact hlt r (List.mem_cons_of_mem _ hr)) o hmem]
      rw [heapRead_write_ne hh o2 o _ (fun he => hno (he ▸ hmem))]

/-- `d[key] = v` makes `key` map to `v`. -/
lemma dictGet_dictSet_self (key : String) (v : JVal) :
    ∀ d : PyDict, dictGet (dictSet d key v) key = some v := by
  intro d
  induction d with
  | nil => simp [dictSet, dictGet]
  | cons kv rest ih =>
    obtain ⟨k, w⟩ := kv
    by_cases hk : k = key
    · rw [dictSet, if_pos hk, dictGet, if_pos rfl]
    · rw [dictSet, if_neg hk, dictGet, if_neg hk]
      exact ih

/-- Popping one key leaves the others' bindings alone. -/
lemma dictGet_dictRemove_ne (k2 key : String) (hne : key ≠ k2) :
    ∀ d : PyDict, dictGet (dictRemove d k2) key = dictGet d key := by
  intro d
  induction d with
  | nil => rfl
  | cons kv rest ih =>
    obtain ⟨k, w⟩ := kv
    by_cases hk : k = k2
    · rw [dictRemove, if_pos hk, dictGet, if_neg (fun he => hne (by rw [← he, hk]))]
    · by_cases hk2 : k = key
      · rw [dictRemove, if_neg hk, dictGet, if_pos hk2, dictGet, if_pos hk2]
      · rw [dictRemove, if_neg hk, dictGet, if_neg hk2, dictGet, if_neg hk2]
        exact ih

/-- Every record the normalization loop has processed carries a `label`
binding. -/
lemma dictGet_normalize_item_label (item : PyDict) :
    ∃ l, dictGet (normalize_item item) "label" = some l := by
  show ∃ l, dictGet (dictRemove (dictSet item "label" (.str (normalize_category
      (((dictGet item "category").map pyStrOfJVal).getD "other")))) "category") "label" = some l
  rw [dictGet_dictRemove_ne "category" "label" (by decide), dictGet_dictSet_self]
  exact ⟨_, rfl⟩

/-- C9: the classification step never alters the source records.  Over
the explicit heap, with `comments` the references to the source
records: after the step, every source reference dereferences to exactly
the dictionary it held before (every field keeps its value), the step's
outputs are that many freshly allocated records — their addresses
disjoint from the sources — holding the classified rows (whose VALUES
may differ from the sources' through the pandas float64 upcast, which
touches only the fresh copies), and the `label` binding exists on every
produced record, attached by in-place writes that target only those
fresh addresses. -/
theorem C9_classification_frame :
    ∀ (polarity : String → ℚ) (h : Heap) (comments : List Nat),
      (∀ a ∈ comments, a < h.length) →
      (∀ a ∈ comments,
        heapRead (process_classification polarity h comments).1 a = heapRead h a) ∧
      ((process_classification polarity h comments).2.length = comments.length) ∧
      (∀ o ∈ (process_classification polarity h comments).2, h.length ≤ o ∧ o ∉ comments) ∧
      (∀ i, i < comments.length →
        heapRead (process_classification polarity h comments).1 (h.length + i)
          = normalize_item
              ((classify_comments polarity (comments.map (heapRead h))).getD i [])) ∧
      (∀ o ∈ (process_classification polarity h comments).2,
        ∃ l, dictGet (heapRead (process_classification polarity h comments).1 o) "label"
          = some l) := by
  intro polarity h comments hvalid
  have hrows_len : (classify_comments polarity (comments.map (heapRead h))).length
      = comments.length := by
    simp [classify_comments]
  have houts : (process_classification polarity h comments).2
      = (List.range (classify_comments polarity (comments.map (heapRead h))).length).map
          (fun i => h.length + i) := rfl
  have hheap : (process_classification polarity h comments).1
      = ((List.range (classify_comments polarity (comments.map (heapRead h))).length).map
            (fun i => h.length + i)).foldl
          (fun acc o => heapWrite acc o (normalize_item (heapRead acc o)))
          (h ++ classify_comments polarity (comments.map (heapRead h))) := rfl
  have houts_mem : ∀ o ∈ (process_classification polarity h comments).2,
      ∃ i, i < comments.length ∧ o = h.length + i := by
    intro o ho
    rw [houts] at ho
    obtain ⟨i, hi, rfl⟩ := List.mem_map.mp ho
    exact ⟨i, by rw [← hrows_len]; exact List.mem_range.mp hi, rfl⟩
  have hframe : ∀ a, a < h.length →
      heapRead (process_classification polarity h comments).1 a = heapRead h a := by
    intro a ha
    rw [hheap]
    rw [foldl_write_frame _ _ a ?hne]
    · exact heapRead_append_left h _ a ha
    case hne =>
      intro o ho
      obtain ⟨i, _, rfl⟩ := List.mem_map.mp ho
      omega
  have hcontent : ∀ i, i < comments.length →
      heapRead (process_classification polarity h comments).1 (h.length + i)
        = normalize_item
            ((classify_comments polarity (comments.map (heapRead h))).getD i []) := by
    intro i hi
    have hio : (h.length + i)
        ∈ (List.range (classify_comments polarity (comments.map (heapRead h))).length).map
            (fun i => h.length + i) :=
      List.mem_map_of_mem _ (List.mem_range.mpr (by rw [hrows_len]; exact hi))
    rw [hheap]
    rw [foldl_write_each _ _ ?nodup ?bounds (h.length + i) hio]
    · rw [heapRead_append_right h _ i]
      rfl
    case nodup =>
      exact (List.nodup_range _).map (fun a b hab => by omega)
    case bounds =>
      intro o ho
      obtain ⟨j, hj, rfl⟩ := List.mem_map.mp ho
      rw [List.length_append]
      have := List.mem_range.mp hj
      omega
  refine ⟨?_, ?_, ?_, hcontent, ?_⟩
  · intro a ha
    exact hframe a (hvalid a ha)
  · rw [houts]
    simp [hrows_len]
  · intro o ho
    obtain ⟨i, hi, rfl⟩ := houts_mem o ho
    refine ⟨by omega, ?_⟩
    intro hmem
    have := hvalid _ hmem
    omega
  · intro o ho
    obtain ⟨i, hi, rfl⟩ := houts_mem o ho
    rw [hcontent i hi]
    exact dictGet_normalize_item_label _

/-- Witness for C9: the frame theorem applied to a one-record heap —
the source record at address 0 is unchanged, the produced record lives
at the fresh address 1 and carries the label. -/
theorem C9_classification_witness :
    heapRead (process_classification (fun _ => 0) [[("text", JVal.str "so bad")]] [0]).1 0
        = [("text", JVal.str "so bad")] ∧
      (process_classification (fun _ => 0) [[("text", JVal.str "so bad")]] [0]).2 = [1] ∧
      ∃ l, dictGet (heapRead (process_classification (fun _ => 0)
          [[("text", JVal.str "so bad")]] [0]).1 1) "label" = some l := by
  have H := C9_classification_frame (fun _ => 0) [[("text", JVal.str "so bad")]] [0]
    (by intro a ha; rw [List.mem_singleton.mp ha]; decide)
  refine ⟨?_, rfl, ?_⟩
  · exact (H.1 0 (List.mem_singleton.mpr rfl)).trans (by rfl)
  · exact H.2.2.2.2 1 (by decide)
